import Mathlib

/-!
# Staff controller (`backend/controllers/staffController.js`)

A shallow embedding of the request handlers `loginStaff`, `createStaff`,
`updateStaff` and `deleteStaff`.  A handler is a pure function from the
collaborators of one request (`Env`), the staff collection before the request
and the request itself to the HTTP response and the staff collection after it.

The libraries the controller calls (Joi, bcrypt, axios, the JavaScript string
primitives) are not part of the repository; what they compute is a field of
`Env`.  The Mongoose model `models/Staff` is part of the repository but not of
the controller file; the collection is a list of records and the model's
operations are the list functions of the section "Staff model".
-/

namespace StaffController

/-! ## JavaScript values and request bodies -/

/-- A value of a parsed JSON request body.  `number` carries integer-valued
numbers, `object` stands for any array or nested object. -/
inductive JsValue where
  | null
  | bool (b : Bool)
  | number (n : Int)
  | string (s : String)
  | object
  deriving DecidableEq, Repr

/-- JavaScript truthiness of the result of a property read (`none` is
`undefined`). -/
def truthy : Option JsValue → Bool
  | none => false
  | some .null => false
  | some (.bool b) => b
  | some (.number n) => decide (n ≠ 0)
  | some (.string s) => decide (s ≠ "")
  | some .object => true

/-- A request body `req.body`: the own properties of the parsed object, in
insertion order. -/
abbrev Body := List (String × JsValue)

/-- Property read `body[k]`. -/
def Body.get : Body → String → Option JsValue
  | [], _ => none
  | (k', v) :: rest, k => if k' = k then some v else Body.get rest k

/-- Property write `body[k] = v` on a property that is present. -/
def Body.set : Body → String → JsValue → Body
  | [], _, _ => []
  | (k', w) :: rest, k, v =>
    (k', if k' = k then v else w) :: Body.set rest k v

/-- `Object.keys(body)`. -/
def Body.keys (b : Body) : List String := b.map Prod.fst

/-- The string held by a property that validation has shown to be a string. -/
def Body.str (b : Body) (k : String) : String :=
  match b.get k with
  | some (.string s) => s
  | _ => ""

/-! ## Data model -/

/-- A document of the staff collection. -/
structure StaffRecord where
  id : String
  username : String
  email : String
  phone : String
  cnic : String
  password : String
  role : String
  deriving DecidableEq, Repr

/-- The staff collection. -/
abbrev Store := List StaffRecord

/-- Property read `staff[field]` for the six schema fields. -/
def StaffRecord.field (r : StaffRecord) (f : String) : String :=
  if f = "username" then r.username
  else if f = "email" then r.email
  else if f = "phone" then r.phone
  else if f = "cnic" then r.cnic
  else if f = "password" then r.password
  else if f = "role" then r.role
  else ""

/-- The body of a successful answer of the role service. -/
structure RoleData where
  name : String
  limit : Nat
  deriving DecidableEq, Repr

/-- One failed rule of a Joi validation: the key and Joi's error type. -/
structure JoiError where
  key : String
  code : String
  deriving DecidableEq, Repr

/-- The collaborators of one request. -/
structure Env where
  /-- Joi's `string().email()` rule. -/
  isEmail : String → Bool
  /-- The text of `error.details[0].message`. -/
  joiMessage : JoiError → String
  /-- `String.prototype.toLowerCase`. -/
  toLowerCase : String → String
  /-- `bcrypt.hash` with the salt drawn for this request. -/
  hash : String → String
  /-- `bcrypt.compare plaintext stored`. -/
  compare : String → String → Bool
  /-- `axios.get` on the role service: the call throws, or answers with a
  body that is empty or a role. -/
  roleDir : String → Except String (Option RoleData)
  /-- Whether a request parameter casts to the type of `_id`. -/
  validId : String → Bool
  /-- The message of the cast error thrown for a parameter that does not. -/
  castError : String → String
  /-- The `_id` given to a document inserted by this request. -/
  newId : String

/-- An HTTP answer: status and the fields of the JSON body. -/
structure Response where
  status : Nat
  message : String
  staffId : Option String := none
  staff : Option StaffRecord := none
  deriving DecidableEq, Repr

/-! ## Joi schemas -/

/-- Length of a JavaScript string, in UTF-16 code units. -/
def utf16Length (s : String) : Nat :=
  (s.data.map fun c => if 65536 ≤ c.toNat then 2 else 1).sum

/-- The pattern `^[0-9]{n}$`. -/
def isDigits (n : Nat) (s : String) : Bool :=
  decide (s.data.length = n) && s.data.all Char.isDigit

/-- The rule chained on `Joi.string()` for each key of the schema. -/
def checkRule (env : Env) (key s : String) : Option String :=
  if key = "email" then (if env.isEmail s then none else some "string.email")
  else if key = "phone" then (if isDigits 11 s then none else some "string.pattern.base")
  else if key = "cnic" then (if isDigits 13 s then none else some "string.pattern.base")
  else if key = "password" then (if 8 ≤ utf16Length s then none else some "string.min")
  else none

/-- Validation of one key of the schema: presence, `Joi.string()` (a string,
not empty), then the key's rule. -/
def validateKey (env : Env) (required : Bool) (body : Body) (key : String) :
    Option JoiError :=
  match body.get key with
  | none => if required then some ⟨key, "any.required"⟩ else none
  | some (.string s) =>
    if s = "" then some ⟨key, "string.empty"⟩
    else (checkRule env key s).map fun c => ⟨key, c⟩
  | some _ => some ⟨key, "string.base"⟩

/-- The keys of both schemas, which are also `allowedFields` of `updateStaff`. -/
def allowedFields : List String :=
  ["username", "email", "phone", "cnic", "password", "role"]

/-- `Joi.object(...).validate(body)` with the default options: the keys of the
schema in order, then the keys the schema does not know; the first error ends
the validation. -/
def joiValidate (env : Env) (required : Bool) (body : Body) : Option JoiError :=
  match allowedFields.findSome? (validateKey env required body) with
  | some e => some e
  | none =>
    match body.keys.find? (fun k => !allowedFields.contains k) with
    | some k => some ⟨k, "object.unknown"⟩
    | none => none

/-- `validateStaff`: every key is required. -/
def validateStaff (env : Env) (body : Body) : Option JoiError :=
  joiValidate env true body

/-! ## Staff model -/

/-- Modelled from the spec: the Mongoose model `models/Staff` is not among the sources.
`Staff.findOne(filter)`: the first document that matches. -/
def Staff.findOne (store : Store) (p : StaffRecord → Bool) : Option StaffRecord :=
  store.find? p

/-- Modelled from the spec: the Mongoose model `models/Staff` is not among the sources.
`Staff.countDocuments(filter)`. -/
def Staff.countDocuments (store : Store) (p : StaffRecord → Bool) : Nat :=
  store.countP p

/-- Modelled from the spec: the Mongoose model `models/Staff` is not among the sources.
`Staff.findById(id)`: throws when the parameter does not cast. -/
def Staff.findById (env : Env) (store : Store) (id : String) :
    Except String (Option StaffRecord) :=
  if env.validId id then .ok (store.find? fun r => r.id = id)
  else .error (env.castError id)

/-- Modelled from the spec: the Mongoose model `models/Staff` is not among the sources.
`new Staff(doc).save()`: "persist new record with hashed password", the email
"lowercase-normalized"; the other fields are stored as handed over. -/
def Staff.save (env : Env) (store : Store)
    (username email phone cnic password role : String) : Store :=
  store ++ [{ id := env.newId, username := username, email := env.toLowerCase email,
              phone := phone, cnic := cnic, password := env.hash password, role := role }]

/-- Modelled from the spec: the Mongoose model `models/Staff` is not among the sources.
The document after `$set: fields`: a key of `fields` replaces the value,
every other field is kept. -/
def applySet (r : StaffRecord) (fields : Body) : StaffRecord :=
  { id := r.id
    username := (if (fields.get "username").isSome then fields.str "username" else r.username)
    email := (if (fields.get "email").isSome then fields.str "email" else r.email)
    phone := (if (fields.get "phone").isSome then fields.str "phone" else r.phone)
    cnic := (if (fields.get "cnic").isSome then fields.str "cnic" else r.cnic)
    password := (if (fields.get "password").isSome then fields.str "password" else r.password)
    role := (if (fields.get "role").isSome then fields.str "role" else r.role) }

/-- Modelled from the spec: the Mongoose model `models/Staff` is not among the sources.
Replace the first document whose `_id` is `id`. -/
def replaceById (id : String) (r' : StaffRecord) : Store → Store
  | [] => []
  | r :: rest => if r.id = id then r' :: rest else r :: replaceById id r' rest

/-- Modelled from the spec: the Mongoose model `models/Staff` is not among the sources.
`Staff.findByIdAndUpdate(id, { $set: fields }, { new: true })`: the updated
document and the collection, or nothing when no document has this `_id`. -/
def Staff.findByIdAndUpdate (store : Store) (id : String) (fields : Body) :
    Option (StaffRecord × Store) :=
  match store.find? fun r => r.id = id with
  | none => none
  | some r => some (applySet r fields, replaceById id (applySet r fields) store)

/-- Modelled from the spec: the Mongoose model `models/Staff` is not among the sources.
Remove the first document whose `_id` is `id`. -/
def removeById (id : String) : Store → Store
  | [] => []
  | r :: rest => if r.id = id then rest else r :: removeById id rest

/-- Modelled from the spec: the Mongoose model `models/Staff` is not among the sources.
`Staff.findByIdAndDelete(id)`: throws when the parameter does not cast. -/
def Staff.findByIdAndDelete (env : Env) (store : Store) (id : String) :
    Except String (Option (StaffRecord × Store)) :=
  if env.validId id then
    match store.find? fun r => r.id = id with
    | none => .ok none
    | some r => .ok (some (r, removeById id store))
  else .error (env.castError id)

/-! ## Handlers -/

/-- `loginStaff` (lines 19-50), for credentials that are strings or falsy.
The result is `none` for a truthy credential that is not a string: what the
query and `bcrypt.compare` do with it is decided outside the controller.
The second component is `req.session.staffId` when the handler sets it. -/
def loginStaff (env : Env) (store : Store) (body : Body) :
    Option (Response × Option String) :=
  let email := body.get "email"
  let password := body.get "password"
  if !truthy email || !truthy password then
    some ({ status := 400, message := "Email and password are required!" }, none)
  else
    match email, password with
    | some (.string e), some (.string p) =>
      match Staff.findOne store (fun r => r.email = e) with
      | none => some ({ status := 404, message := "Invalid email or password!" }, none)
      | some staff =>
        if !env.compare p staff.password then
          some ({ status := 401, message := "Invalid email or password!" }, none)
        else
          some ({ status := 200, message := "Login successful!", staffId := some staff.id },
                some staff.id)
    | _, _ => none

/-- `createStaff` (lines 54-91). -/
def createStaff (env : Env) (store : Store) (body : Body) : Response × Store :=
  match validateStaff env body with
  | some e => ({ status := 400, message := env.joiMessage e }, store)
  | none =>
    let username := body.str "username"
    let email := body.str "email"
    let phone := body.str "phone"
    let cnic := body.str "cnic"
    let password := body.str "password"
    let role := body.str "role"
    let roleStaffCount := Staff.countDocuments store (fun r => r.role = role)
    match env.roleDir role with
    | .error msg => ({ status := 500, message := msg }, store)
    | .ok none => ({ status := 400, message := "Invalid role ID!" }, store)
    | .ok (some roleData) =>
      if roleStaffCount ≥ roleData.limit then
        ({ status := 400, message := "Limit Reached!! Can't Add More Staff for this role" },
         store)
      else
        match Staff.findOne store
            (fun r => r.email = email || r.phone = phone || r.cnic = cnic) with
        | some _ => ({ status := 400, message := "Staff already exists!" }, store)
        | none =>
          ({ status := 201, message := "Staff created successfully!" },
           Staff.save env store username email phone cnic password role)

/-- Lines 123-125: the keys of the body that are not allowed. -/
def invalidFields (body : Body) : List String :=
  body.keys.filter fun field => !allowedFields.contains field

/-- Lines 133-135: a truthy `email` is replaced by `email.toLowerCase()`;
`none` when the call throws because the value has no such method. -/
def lowerEmail (env : Env) (body : Body) : Option Body :=
  if truthy (body.get "email") then
    match body.get "email" with
    | some (.string e) => some (body.set "email" (.string (env.toLowerCase e)))
    | _ => none
  else some body

/-- Lines 154-157: a truthy `password` is replaced by its bcrypt hash; `none`
when `bcrypt.hash` throws because the value is not a string. -/
def hashPassword (env : Env) (body : Body) : Option Body :=
  if truthy (body.get "password") then
    match body.get "password" with
    | some (.string p) => some (body.set "password" (.string (env.hash p)))
    | _ => none
  else some body

/-- Lines 166-174: the first of the given fields that is supplied, differs
from the current document and is held by a document of the collection. -/
def uniqueConflict (store : Store) (currentStaff : StaffRecord) (fields : Body) :
    List String → Option String
  | [] => none
  | field :: rest =>
    if truthy (fields.get field)
        && decide (fields.get field ≠ some (.string (currentStaff.field field))) then
      match Staff.findOne store
          (fun r => decide (some (JsValue.string (r.field field)) = fields.get field)) with
      | some _ => some field
      | none => uniqueConflict store currentStaff fields rest
    else uniqueConflict store currentStaff fields rest

/-- Lines 177-195: the answer that ends the request, if the role check does. -/
def roleLimitCheck (env : Env) (store : Store) (id : String) (currentStaff : StaffRecord)
    (fields : Body) : Option Response :=
  if truthy (fields.get "role")
      && decide (fields.get "role" ≠ some (.string currentStaff.role)) then
    match env.roleDir (fields.str "role") with
    | .error _ => some { status := 500, message := "An error occurred while updating staff." }
    | .ok none => some { status := 400, message := "Invalid role ID!" }
    | .ok (some roleData) =>
      let roleStaffCount := Staff.countDocuments store
        (fun r => decide (some (JsValue.string r.role) = fields.get "role") && decide (r.id ≠ id))
      if roleStaffCount ≥ roleData.limit then
        some { status := 400,
               message := "Limit Reached! Cannot assign more staff to the \"" ++ roleData.name
                            ++ "\" role." }
      else none
  else none

/-- `updateStaff` (lines 114-216). -/
def updateStaff (env : Env) (store : Store) (id : String) (body : Body) : Response × Store :=
  if (invalidFields body).length > 0 then
    ({ status := 400, message := "Invalid fields: " ++ ", ".intercalate (invalidFields body) },
     store)
  else
    match lowerEmail env body with
    | none => ({ status := 500, message := "An error occurred while updating staff." }, store)
    | some lowered =>
      match joiValidate env false lowered with
      | some e => ({ status := 400, message := env.joiMessage e }, store)
      | none =>
        match hashPassword env lowered with
        | none => ({ status := 500, message := "An error occurred while updating staff." }, store)
        | some fieldsToUpdate =>
          match Staff.findById env store id with
          | .error _ =>
            ({ status := 500, message := "An error occurred while updating staff." }, store)
          | .ok none => ({ status := 404, message := "Staff not found!" }, store)
          | .ok (some currentStaff) =>
            match uniqueConflict store currentStaff fieldsToUpdate ["email", "phone", "cnic"] with
            | some field => ({ status := 400, message := field ++ " already exists!" }, store)
            | none =>
              match roleLimitCheck env store id currentStaff fieldsToUpdate with
              | some response => (response, store)
              | none =>
                match Staff.findByIdAndUpdate store id fieldsToUpdate with
                | none => ({ status := 404, message := "Staff not found!" }, store)
                | some (updatedStaff, store') =>
                  ({ status := 200, message := "Staff updated successfully!",
                     staff := some updatedStaff }, store')

/-- `deleteStaff` (lines 220-228). -/
def deleteStaff (env : Env) (store : Store) (id : String) : Response × Store :=
  match Staff.findByIdAndDelete env store id with
  | .error msg => ({ status := 500, message := msg }, store)
  | .ok none => ({ status := 404, message := "Staff not found!" }, store)
  | .ok (some (_, store')) => ({ status := 200, message := "Staff deleted successfully!" }, store')

/-! ## Predicates of the specification -/

/-- No two documents of the collection share an email, a phone or a cnic. -/
def UniqueStore (store : Store) : Prop :=
  store.Pairwise fun a b => a.email ≠ b.email ∧ a.phone ≠ b.phone ∧ a.cnic ≠ b.cnic

instance (store : Store) : Decidable (UniqueStore store) := by
  unfold UniqueStore; infer_instance

/-- What the loop of lines 167-174 tests for one field: the value is supplied,
differs from the current document and is held by a document of the collection. -/
def loopConflict (store : Store) (cur : StaffRecord) (fields : Body) (field : String) : Prop :=
  truthy (fields.get field) = true ∧ fields.get field ≠ some (.string (cur.field field)) ∧
    ∃ r ∈ store, some (JsValue.string (r.field field)) = fields.get field

/-- The conflict of the specification for one field of an update of record
`id`: the supplied value differs from the record's current value and is held by
a record other than `id`. -/
def SpecConflict (store : Store) (id : String) (cur : StaffRecord) (fields : Body)
    (field : String) : Prop :=
  ∃ s, fields.get field = some (.string s) ∧ s ≠ cur.field field ∧
    ∃ r ∈ store, r.id ≠ id ∧ r.field field = s

/-- The format violations of the specification: a supplied phone that is not
11 decimal digits, a supplied cnic that is not 13 decimal digits, or a supplied
password shorter than 8 (UTF-16) characters. -/
def FormatViolation (body : Body) : Prop :=
  (∃ s, body.get "phone" = some (.string s) ∧ isDigits 11 s = false) ∨
  (∃ s, body.get "cnic" = some (.string s) ∧ isDigits 13 s = false) ∨
  (∃ s, body.get "password" = some (.string s) ∧ utf16Length s < 8)

/-! ## Sample collaborators and requests -/

/-- A role service that knows `r1` (limit 5) and `r2` (limit 1). -/
def sampleRoleDir (role : String) : Except String (Option RoleData) :=
  if role = "r1" then .ok (some { name := "Manager", limit := 5 })
  else if role = "r2" then .ok (some { name := "Cashier", limit := 1 })
  else .ok none

/-- Collaborators with simple stand-ins for the libraries. -/
def sampleEnv : Env where
  isEmail := fun s => s.data.contains '@'
  joiMessage := fun e => e.key ++ ": " ++ e.code
  toLowerCase := fun s => String.mk (s.data.map Char.toLower)
  hash := fun p => "$2b$10$" ++ p
  compare := fun p stored => decide (stored = "$2b$10$" ++ p)
  roleDir := sampleRoleDir
  validId := fun _ => true
  castError := fun id => "Cast to ObjectId failed for value " ++ id
  newId := "s3"

/-- The create request of the example in the specification. -/
def sampleBody : Body :=
  [("username", .string "a"), ("email", .string "a@x.com"), ("phone", .string "01234567890"),
   ("cnic", .string "1234567890123"), ("password", .string "password1"), ("role", .string "r1")]

/-- A collection of two documents: one manager, one cashier. -/
def sampleStore : Store :=
  [{ id := "s1", username := "a", email := "a@x.com", phone := "01234567890",
     cnic := "1234567890123", password := "$2b$10$password1", role := "r1" },
   { id := "s2", username := "b", email := "b@x.com", phone := "01234567891",
     cnic := "1234567890124", password := "$2b$10$password2", role := "r2" }]

/-- A create request whose email is `a@x.com` of `sampleStore` in upper case and
whose phone and cnic no document of `sampleStore` holds. -/
def upperBody : Body :=
  [("username", .string "c"), ("email", .string "A@X.COM"), ("phone", .string "01234567892"),
   ("cnic", .string "1234567890125"), ("password", .string "password3"), ("role", .string "r1")]

/-- A create request that conflicts with no document of `sampleStore`. -/
def freshBody (role : String) : Body :=
  [("username", .string "c"), ("email", .string "c@x.com"), ("phone", .string "01234567892"),
   ("cnic", .string "1234567890125"), ("password", .string "password3"), ("role", .string role)]


/-! ## Lemmas on validation and on the body -/

theorem validateKey_eq_none {env : Env} {required : Bool} {body : Body} {k : String}
    (h : validateKey env required body k = none) :
    (body.get k = none ∧ required = false) ∨
      ∃ s, body.get k = some (.string s) ∧ s ≠ "" ∧ checkRule env k s = none := by
  unfold validateKey at h
  split at h
  · next hk => left; exact ⟨hk, by simpa using h⟩
  · next s hk =>
    right
    by_cases hs : s = ""
    · simp [hs] at h
    · refine ⟨s, hk, hs, ?_⟩
      simpa [hs] using h
  · simp at h

theorem joiValidate_eq_none {env : Env} {required : Bool} {body : Body}
    (h : joiValidate env required body = none) :
    (∀ k ∈ allowedFields, validateKey env required body k = none) ∧
      ∀ k ∈ body.keys, k ∈ allowedFields := by
  unfold joiValidate at h
  split at h
  · simp at h
  · next hnone =>
    split at h
    · simp at h
    · next hfind =>
      constructor
      · intro k hk
        rw [List.findSome?_eq_none_iff] at hnone
        exact hnone k hk
      · intro k hk
        rw [List.find?_eq_none] at hfind
        simpa using hfind k hk

theorem Body.get_set_ne (b : Body) {k k' : String} (v : JsValue) (h : k ≠ k') :
    (b.set k' v).get k = b.get k := by
  induction b with
  | nil => rfl
  | cons kv rest ih =>
    obtain ⟨k0, w⟩ := kv
    by_cases h0 : k0 = k'
    · have : k0 ≠ k := by rintro rfl; exact h h0
      simp [Body.set, Body.get, this, ih]
    · by_cases h1 : k0 = k
      · simp [Body.set, Body.get, h0, h1]
        intro h2; exact absurd h2 h
      · simp [Body.set, Body.get, h0, h1, ih]

theorem Body.get_set_eq (b : Body) (k : String) (v : JsValue) (h : (b.get k).isSome) :
    (b.set k v).get k = some v := by
  induction b with
  | nil => simp [Body.get] at h
  | cons kv rest ih =>
    obtain ⟨k0, w⟩ := kv
    by_cases h0 : k0 = k
    · simp [Body.set, Body.get, h0]
    · simp [Body.get, h0] at h
      simp [Body.set, Body.get, h0, ih h]

theorem find_findById {env : Env} {store : Store} {id : String} {cur : StaffRecord}
    (h : Staff.findById env store id = .ok (some cur)) :
    env.validId id = true ∧ store.find? (fun r => decide (r.id = id)) = some cur := by
  unfold Staff.findById at h
  split at h
  · next hv => exact ⟨hv, by simpa using h⟩
  · simp at h

/-- The shape of every run of `updateStaff`. -/
theorem updateStaff_cases (env : Env) (store : Store) (id : String) (body : Body) :
    ((updateStaff env store id body).2 = store ∧ (updateStaff env store id body).1.status ≠ 200) ∨
    ∃ b1 b2 cur, invalidFields body = [] ∧ lowerEmail env body = some b1 ∧
      joiValidate env false b1 = none ∧ hashPassword env b1 = some b2 ∧
      store.find? (fun r => decide (r.id = id)) = some cur ∧
      uniqueConflict store cur b2 ["email", "phone", "cnic"] = none ∧
      roleLimitCheck env store id cur b2 = none ∧
      updateStaff env store id body =
        ({ status := 200, message := "Staff updated successfully!",
           staff := some (applySet cur b2) }, replaceById id (applySet cur b2) store) := by
  unfold updateStaff
  split
  · left; simp
  · next hinv =>
    have hinv' : invalidFields body = [] := by
      cases hi : invalidFields body with
      | nil => rfl
      | cons a l => simp [hi] at hinv
    split
    · left; simp
    · next b1 hl =>
      split
      · left; simp
      · next hv =>
        split
        · left; simp
        · next b2 hh =>
          split
          · left; simp
          · left; simp
          · next cur hid =>
            have hfind := (find_findById hid).2
            split
            · left; simp
            · next hu =>
              split
              · next response hr =>
                left
                refine ⟨rfl, ?_⟩
                unfold roleLimitCheck at hr
                split at hr
                · split at hr
                  · simp at hr; subst hr; simp
                  · simp at hr; subst hr; simp
                  · dsimp only at hr
                    split at hr
                    · simp at hr; subst hr; simp
                    · simp at hr
                · simp at hr
              · next hrole =>
                right
                refine ⟨b1, b2, cur, hinv', hl, hv, hh, hfind, hu, hrole, ?_⟩
                simp [Staff.findByIdAndUpdate, hfind]

theorem valid_get {env : Env} {required : Bool} {body : Body}
    (h : joiValidate env required body = none) {k : String} (hk : k ∈ allowedFields) :
    (body.get k = none ∧ required = false) ∨
      ∃ s, body.get k = some (.string s) ∧ s ≠ "" ∧ checkRule env k s = none :=
  validateKey_eq_none ((joiValidate_eq_none h).1 k hk)

theorem hashPassword_get {env : Env} {b1 b2 : Body} (hh : hashPassword env b1 = some b2)
    {k : String} (hk : k ≠ "password") : b2.get k = b1.get k := by
  unfold hashPassword at hh
  split at hh
  · split at hh
    · simp only [Option.some.injEq] at hh
      subst hh
      exact Body.get_set_ne _ _ hk
    · simp at hh
  · simp only [Option.some.injEq] at hh
    subst hh; rfl

theorem hashPassword_password {env : Env} {b1 b2 : Body} (hh : hashPassword env b1 = some b2) :
    (b1.get "password" = none → b2.get "password" = none) ∧
    ∀ p, p ≠ "" → b1.get "password" = some (.string p) →
      b2.get "password" = some (.string (env.hash p)) := by
  unfold hashPassword at hh
  constructor
  · intro hn
    simp [hn, truthy] at hh
    subst hh; exact hn
  · intro p hp hget
    simp [hget, truthy, hp] at hh
    subst hh
    exact Body.get_set_eq _ _ _ (by simp [hget])

theorem hashPassword_of_valid {env : Env} {b1 : Body} (hv : joiValidate env false b1 = none) :
    ∃ b2, hashPassword env b1 = some b2 := by
  rcases valid_get hv (k := "password") (by simp [allowedFields]) with ⟨h, _⟩ | ⟨s, h, hs, _⟩
  · exact ⟨b1, by simp [hashPassword, h, truthy]⟩
  · exact ⟨b1.set "password" (.string (env.hash s)), by simp [hashPassword, h, truthy, hs]⟩

theorem lowerEmail_get {env : Env} {body b1 : Body} (hl : lowerEmail env body = some b1)
    {k : String} (hk : k ≠ "email") : b1.get k = body.get k := by
  unfold lowerEmail at hl
  split at hl
  · split at hl
    · simp only [Option.some.injEq] at hl
      subst hl
      exact Body.get_set_ne _ _ hk
    · simp at hl
  · simp only [Option.some.injEq] at hl
    subst hl; rfl

theorem lowerEmail_email {env : Env} {body b1 : Body} (hl : lowerEmail env body = some b1) :
    (body.get "email" = none → b1.get "email" = none) ∧
    ∀ e, e ≠ "" → body.get "email" = some (.string e) →
      b1.get "email" = some (.string (env.toLowerCase e)) := by
  unfold lowerEmail at hl
  constructor
  · intro hn
    simp [hn, truthy] at hl
    subst hl; exact hn
  · intro e he hget
    simp [hget, truthy, he] at hl
    subst hl
    exact Body.get_set_eq _ _ _ (by simp [hget])

theorem merge_field_cases {store : Store} {cur : StaffRecord} {fields : Body} {f : String}
    (hv : fields.get f = none ∨ ∃ s, fields.get f = some (.string s) ∧ s ≠ "")
    (hn : ¬ loopConflict store cur fields f) :
    fields.get f = none ∨
      ∃ s, fields.get f = some (.string s) ∧ (s = cur.field f ∨ ∀ r ∈ store, r.field f ≠ s) := by
  rcases hv with h | ⟨s, h, hs⟩
  · exact Or.inl h
  · right
    refine ⟨s, h, ?_⟩
    by_cases hc : s = cur.field f
    · exact Or.inl hc
    · right
      intro r hr heq
      apply hn
      refine ⟨by simp [h, truthy, hs], ?_, r, hr, by rw [h, heq]⟩
      rw [h]
      intro h2
      exact hc (by simpa using h2)

theorem createStaff_cases (env : Env) (store : Store) (body : Body) :
    (createStaff env store body).2 = store ∨
    ((∀ r ∈ store, r.email ≠ body.str "email" ∧ r.phone ≠ body.str "phone"
        ∧ r.cnic ≠ body.str "cnic") ∧
      (createStaff env store body).2 =
        Staff.save env store (body.str "username") (body.str "email") (body.str "phone")
          (body.str "cnic") (body.str "password") (body.str "role")) := by
  unfold createStaff
  split
  · left; rfl
  · dsimp only
    split
    · left; rfl
    · left; rfl
    · split
      · left; rfl
      · split
        · left; rfl
        · next hfind =>
          right
          refine ⟨?_, rfl⟩
          unfold Staff.findOne at hfind
          rw [List.find?_eq_none] at hfind
          intro r hr
          have := hfind r hr
          simp only [Bool.or_eq_true, decide_eq_true_eq, not_or] at this
          exact ⟨this.1.1, this.1.2, this.2⟩


/-! ## Lemmas on the collection -/

theorem findOne_create_none {store : Store} {e p c : String}
    (h : ∀ r ∈ store, r.email ≠ e ∧ r.phone ≠ p ∧ r.cnic ≠ c) :
    Staff.findOne store (fun r => decide (r.email = e) || decide (r.phone = p) || decide (r.cnic = c))
      = none := by
  unfold Staff.findOne
  rw [List.find?_eq_none]
  intro r hr
  have := h r hr
  simp [this.1, this.2.1, this.2.2]

theorem findOne_create_some {store : Store} {e p c : String}
    (h : ∃ r ∈ store, r.email = e ∨ r.phone = p ∨ r.cnic = c) :
    ∃ r, Staff.findOne store
      (fun r => decide (r.email = e) || decide (r.phone = p) || decide (r.cnic = c)) = some r := by
  unfold Staff.findOne
  obtain ⟨r, hr, hor⟩ := h
  cases hfind : store.find? (fun r => decide (r.email = e) || decide (r.phone = p) || decide (r.cnic = c)) with
  | some r' => exact ⟨r', rfl⟩
  | none =>
    rw [List.find?_eq_none] at hfind
    have := hfind r hr
    simp at this
    rcases hor with h1 | h1 | h1
    · exact absurd h1 this.1.1
    · exact absurd h1 this.1.2
    · exact absurd h1 this.2


theorem mem_replaceById {id : String} {new y : StaffRecord} {store : Store}
    (h : y ∈ replaceById id new store) : y ∈ store ∨ y = new := by
  induction store with
  | nil => simp [replaceById] at h
  | cons r rest ih =>
    unfold replaceById at h
    split at h
    · rcases List.mem_cons.1 h with h1 | h1
      · exact Or.inr h1
      · exact Or.inl (List.mem_cons_of_mem _ h1)
    · rcases List.mem_cons.1 h with h1 | h1
      · exact Or.inl (h1 ▸ List.mem_cons_self _ _)
      · rcases ih h1 with h2 | h2
        · exact Or.inl (List.mem_cons_of_mem _ h2)
        · exact Or.inr h2

theorem unique_replaceById {store : Store} {id : String} {cur new : StaffRecord}
    (hu : UniqueStore store)
    (hfind : store.find? (fun r => decide (r.id = id)) = some cur)
    (he : new.email = cur.email ∨ ∀ r ∈ store, r.email ≠ new.email)
    (hp : new.phone = cur.phone ∨ ∀ r ∈ store, r.phone ≠ new.phone)
    (hc : new.cnic = cur.cnic ∨ ∀ r ∈ store, r.cnic ≠ new.cnic) :
    UniqueStore (replaceById id new store) := by
  induction store with
  | nil => simp [replaceById, UniqueStore]
  | cons r rest ih =>
    unfold UniqueStore at hu ⊢
    rw [List.pairwise_cons] at hu
    obtain ⟨hhead, htail⟩ := hu
    by_cases hid : r.id = id
    · have hcur : cur = r := by simpa [List.find?, hid] using hfind.symm
      subst hcur
      simp only [replaceById, hid, if_true]
      rw [List.pairwise_cons]
      refine ⟨fun x hx => ⟨?_, ?_, ?_⟩, htail⟩
      · rcases he with h1 | h1
        · rw [h1]; exact (hhead x hx).1
        · exact fun h2 => h1 x (List.mem_cons_of_mem _ hx) h2.symm
      · rcases hp with h1 | h1
        · rw [h1]; exact (hhead x hx).2.1
        · exact fun h2 => h1 x (List.mem_cons_of_mem _ hx) h2.symm
      · rcases hc with h1 | h1
        · rw [h1]; exact (hhead x hx).2.2
        · exact fun h2 => h1 x (List.mem_cons_of_mem _ hx) h2.symm
    · have hfind' : rest.find? (fun r => decide (r.id = id)) = some cur := by
        simpa [List.find?, hid] using hfind
      have hmem : cur ∈ rest := List.mem_of_find?_eq_some hfind'
      simp only [replaceById, hid, if_false]
      rw [List.pairwise_cons]
      refine ⟨fun y hy => ?_, ?_⟩
      · rcases mem_replaceById hy with h1 | h1
        · exact hhead y h1
        · subst h1
          refine ⟨?_, ?_, ?_⟩
          · rcases he with h1 | h1
            · rw [h1]; exact (hhead cur hmem).1
            · exact h1 r (List.mem_cons_self _ _)
          · rcases hp with h1 | h1
            · rw [h1]; exact (hhead cur hmem).2.1
            · exact h1 r (List.mem_cons_self _ _)
          · rcases hc with h1 | h1
            · rw [h1]; exact (hhead cur hmem).2.2
            · exact h1 r (List.mem_cons_self _ _)
      · exact ih htail hfind'
          (he.imp (fun h => h) fun h x hx => h x (List.mem_cons_of_mem _ hx))
          (hp.imp (fun h => h) fun h x hx => h x (List.mem_cons_of_mem _ hx))
          (hc.imp (fun h => h) fun h x hx => h x (List.mem_cons_of_mem _ hx))

theorem removeById_sublist (id : String) (store : Store) :
    (removeById id store).Sublist store := by
  induction store with
  | nil => simp [removeById]
  | cons r rest ih =>
    unfold removeById
    split
    · exact List.sublist_cons_self _ _
    · exact ih.cons₂ _

theorem uniqueConflict_cons_of_conflict {store : Store} {cur : StaffRecord} {fields : Body}
    {field : String} (rest : List String) (h : loopConflict store cur fields field) :
    uniqueConflict store cur fields (field :: rest) = some field := by
  obtain ⟨h1, h2, r, hr, h3⟩ := h
  unfold uniqueConflict
  simp only [h1, h2, ne_eq, not_false_eq_true, decide_True, Bool.and_self, if_true]
  cases hfind : Staff.findOne store
      (fun r => decide (some (JsValue.string (r.field field)) = fields.get field)) with
  | some _ => rfl
  | none =>
    unfold Staff.findOne at hfind
    rw [List.find?_eq_none] at hfind
    have := hfind r hr
    simp [h3] at this

theorem uniqueConflict_cons_of_not {store : Store} {cur : StaffRecord} {fields : Body}
    {field : String} (rest : List String) (h : ¬ loopConflict store cur fields field) :
    uniqueConflict store cur fields (field :: rest) = uniqueConflict store cur fields rest := by
  rw [uniqueConflict]
  split
  · next hcond =>
    simp only [Bool.and_eq_true, decide_eq_true_eq] at hcond
    cases hfind : Staff.findOne store
        (fun r => decide (some (JsValue.string (r.field field)) = fields.get field)) with
    | none => rfl
    | some r =>
      exfalso
      unfold Staff.findOne at hfind
      have hm := List.mem_of_find?_eq_some hfind
      have hp := List.find?_some hfind
      exact h ⟨hcond.1, hcond.2, r, hm, by simpa using hp⟩
  · rfl

theorem uniqueConflict_eq_none {store : Store} {cur : StaffRecord} {fields : Body}
    {fs : List String} (h : uniqueConflict store cur fields fs = none) :
    ∀ f ∈ fs, ¬ loopConflict store cur fields f := by
  induction fs with
  | nil => simp
  | cons f rest ih =>
    intro g hg
    by_cases hc : loopConflict store cur fields f
    · rw [uniqueConflict_cons_of_conflict rest hc] at h
      simp at h
    · rw [uniqueConflict_cons_of_not rest hc] at h
      rcases List.mem_cons.1 hg with h1 | h1
      · exact h1 ▸ hc
      · exact ih h g h1


/-! ## Lemmas on the merge -/

theorem Body.mem_keys_of_get {b : Body} {k : String} {v : JsValue} (h : b.get k = some v) :
    k ∈ b.keys := by
  induction b with
  | nil => simp [Body.get] at h
  | cons kv rest ih =>
    obtain ⟨k0, w⟩ := kv
    by_cases h0 : k0 = k
    · simp [Body.keys, h0]
    · simp only [Body.get, h0, if_false] at h
      have := ih h
      simp only [Body.keys, List.map_cons, List.mem_cons] at this ⊢
      exact Or.inr this

theorem allowed_of_invalidFields_nil {body : Body} (h : invalidFields body = []) {k : String}
    (hk : k ∈ body.keys) : k ∈ allowedFields := by
  by_contra hnot
  have : k ∈ invalidFields body := by
    unfold invalidFields
    rw [List.mem_filter]
    exact ⟨hk, by simpa using hnot⟩
  rw [h] at this
  simp at this

theorem applySet_field (cur : StaffRecord) (fields : Body) {f : String}
    (hf : f ∈ allowedFields) :
    (applySet cur fields).field f
      = if (fields.get f).isSome then fields.str f else cur.field f := by
  simp only [allowedFields, List.mem_cons, List.mem_singleton, List.not_mem_nil,
    or_false] at hf
  rcases hf with rfl | rfl | rfl | rfl | rfl | rfl <;> simp [applySet, StaffRecord.field]

theorem lowerEmail_supplied {env : Env} {body b1 : Body} (hl : lowerEmail env body = some b1)
    (hv : joiValidate env false b1 = none) {v : JsValue} (hget : body.get "email" = some v) :
    ∃ e, v = .string e ∧ e ≠ "" ∧ b1.get "email" = some (.string (env.toLowerCase e)) := by
  by_cases ht : truthy (body.get "email") = true
  · unfold lowerEmail at hl
    rw [if_pos ht] at hl
    rw [hget] at hl ht
    cases v with
    | string e =>
      have he : e ≠ "" := by simpa [truthy] using ht
      refine ⟨e, rfl, he, ?_⟩
      simp only [Option.some.injEq] at hl
      subst hl
      exact Body.get_set_eq _ _ _ (by simp [hget])
    | null => simp at hl
    | bool b => simp at hl
    | number n => simp at hl
    | object => simp at hl
  · exfalso
    have hb : b1 = body := by
      unfold lowerEmail at hl
      rw [if_neg ht] at hl
      exact (Option.some.inj hl).symm
    subst hb
    rcases valid_get hv (k := "email") (by simp [allowedFields]) with ⟨h1, _⟩ | ⟨s, h1, hs, _⟩
    · rw [h1] at hget; simp at hget
    · rw [h1] at ht
      simp [truthy, hs] at ht

theorem replaceById_eq_set {store : Store} {id : String} {cur : StaffRecord}
    (new : StaffRecord) (hfind : store.find? (fun r => decide (r.id = id)) = some cur) :
    ∃ n, store[n]? = some cur ∧ replaceById id new store = store.set n new := by
  induction store with
  | nil => simp at hfind
  | cons r rest ih =>
    by_cases hid : r.id = id
    · refine ⟨0, ?_, ?_⟩
      · have : cur = r := by simpa [List.find?, hid] using hfind.symm
        simp [this]
      · simp [replaceById, hid]
    · have hfind' : rest.find? (fun r => decide (r.id = id)) = some cur := by
        simpa [List.find?, hid] using hfind
      obtain ⟨n, h1, h2⟩ := ih hfind'
      exact ⟨n + 1, by simpa using h1, by simp [replaceById, hid, h2]⟩

theorem updateStaff_prepared {env : Env} {store : Store} {id : String} {body b1 b2 : Body}
    {cur : StaffRecord} (hf : invalidFields body = []) (hl : lowerEmail env body = some b1)
    (hv : joiValidate env false b1 = none) (hh : hashPassword env b1 = some b2)
    (hid : Staff.findById env store id = .ok (some cur)) :
    updateStaff env store id body =
      match uniqueConflict store cur b2 ["email", "phone", "cnic"] with
      | some field => ({ status := 400, message := field ++ " already exists!" }, store)
      | none =>
        match roleLimitCheck env store id cur b2 with
        | some response => (response, store)
        | none =>
          ({ status := 200, message := "Staff updated successfully!",
             staff := some (applySet cur b2) }, replaceById id (applySet cur b2) store) := by
  have hfind := (find_findById hid).2
  simp only [updateStaff, hf, List.length_nil, gt_iff_lt, lt_self_iff_false, if_false, hl, hv,
    hh, hid, Staff.findByIdAndUpdate, hfind]

theorem eq_of_same_id {store : Store} (hids : (store.map StaffRecord.id).Nodup)
    {r cur : StaffRecord} (hr : r ∈ store) (hc : cur ∈ store) (h : r.id = cur.id) : r = cur :=
  List.inj_on_of_nodup_map hids hr hc h

theorem limit_message_ne (name : String) {f : String} (hf : f ∈ ["email", "phone", "cnic"]) :
    "Limit Reached! Cannot assign more staff to the \"" ++ name ++ "\" role."
      ≠ f ++ " already exists!" := by
  intro h
  have h2 := congrArg (fun s => s.data.head?) h
  simp only [String.data_append] at h2
  simp only [List.mem_cons, List.mem_singleton, List.not_mem_nil, or_false] at hf
  rcases hf with rfl | rfl | rfl <;> simp at h2


/-! ## Lemmas on the checks of `updateStaff` -/

theorem specConflict_iff_loopConflict {env : Env} {store : Store} {id : String}
    {b1 b2 : Body} {cur : StaffRecord} (hids : (store.map StaffRecord.id).Nodup)
    (hfind : store.find? (fun r => decide (r.id = id)) = some cur)
    (hv : joiValidate env false b1 = none) (hh : hashPassword env b1 = some b2)
    {f : String} (hf : f ∈ ["email", "phone", "cnic"]) :
    SpecConflict store id cur b1 f ↔ loopConflict store cur b2 f := by
  have hf1 : f ≠ "password" := by rintro rfl; simp at hf
  have hf2 : f ∈ allowedFields := by
    simp only [allowedFields, List.mem_cons] at hf ⊢
    tauto
  have hget : b2.get f = b1.get f := hashPassword_get hh hf1
  have hcur : cur.id = id := by simpa using List.find?_some hfind
  have hmem : cur ∈ store := List.mem_of_find?_eq_some hfind
  unfold SpecConflict loopConflict
  rw [hget]
  constructor
  · rintro ⟨s, hs, hne, r, hr, _, hrs⟩
    rcases valid_get hv hf2 with ⟨h2, _⟩ | ⟨s', h2, hs', _⟩
    · rw [h2] at hs; simp at hs
    · have : s' = s := by rw [h2] at hs; simpa using hs
      subst this
      refine ⟨by simp [h2, truthy, hs'], ?_, r, hr, by rw [hrs, h2]⟩
      rw [h2]
      intro h3
      exact hne (by simpa using h3)
  · rintro ⟨ht, hne, r, hr, hrs⟩
    rcases valid_get hv hf2 with ⟨h2, _⟩ | ⟨s, h2, _, _⟩
    · rw [h2] at ht; simp [truthy] at ht
    · rw [h2] at hne hrs
      have hrs' : r.field f = s := by simpa using hrs
      have hne' : s ≠ cur.field f := fun h3 => hne (by rw [h3])
      refine ⟨s, h2, hne', r, hr, ?_, hrs'⟩
      intro hrid
      have : r = cur := eq_of_same_id hids hr hmem (by rw [hrid, hcur])
      subst this
      exact hne' hrs'.symm

theorem roleLimitCheck_message {env : Env} {store : Store} {id : String} {cur : StaffRecord}
    {fields : Body} {response : Response}
    (h : roleLimitCheck env store id cur fields = some response) :
    response.message = "An error occurred while updating staff." ∨
    response.message = "Invalid role ID!" ∨
    ∃ name, response.message
      = "Limit Reached! Cannot assign more staff to the \"" ++ name ++ "\" role." := by
  unfold roleLimitCheck at h
  split at h
  · split at h
    · simp only [Option.some.injEq] at h; subst h; exact Or.inl rfl
    · simp only [Option.some.injEq] at h; subst h; exact Or.inr (Or.inl rfl)
    · next roleData _ =>
      dsimp only at h
      split at h
      · simp only [Option.some.injEq] at h; subst h; exact Or.inr (Or.inr ⟨roleData.name, rfl⟩)
      · simp at h
  · simp at h


/-! ## Login -/

/-- C1, as the code behaves: for a request with non-empty email and password,
`loginStaff` answers 404 when no staff record has the email and 401 when a record
has it and the password does not match; only the message text is the same. -/
theorem loginStaff_unknown_email_is_404 :
    loginStaff sampleEnv sampleStore
        [("email", .string "nobody@x.com"), ("password", .string "password1")]
      = some ({ status := 404, message := "Invalid email or password!" }, none) ∧
    loginStaff sampleEnv sampleStore
        [("email", .string "a@x.com"), ("password", .string "password9")]
      = some ({ status := 401, message := "Invalid email or password!" }, none) := by
  decide

/-! ## Create -/

/-- C4: for a valid payload whose role is known and under its limit and whose
email, phone and cnic match no stored record, `createStaff` answers 201 and
appends one record whose password is the hash of the submitted password, which
is not the submitted plaintext when hashing changes it. -/
theorem createStaff_persists_hash (env : Env) (store : Store) (body : Body)
    (roleData : RoleData) (pw : String)
    (hvalid : validateStaff env body = none)
    (hrole : env.roleDir (body.str "role") = .ok (some roleData))
    (hunder : store.countP (fun r => decide (r.role = body.str "role")) < roleData.limit)
    (hfresh : ∀ r ∈ store, r.email ≠ body.str "email" ∧ r.phone ≠ body.str "phone"
      ∧ r.cnic ≠ body.str "cnic")
    (hpw : body.get "password" = some (.string pw))
    (hhash : env.hash pw ≠ pw) :
    (createStaff env store body).1.status = 201 ∧
    ∃ r, (createStaff env store body).2 = store ++ [r] ∧ r.password = env.hash pw
      ∧ r.password ≠ pw := by
  have hlt : ¬ roleData.limit ≤ store.countP (fun r => decide (r.role = body.str "role")) := by
    omega
  have hstr : body.str "password" = pw := by simp [Body.str, hpw]
  simp [createStaff, hvalid, hrole, Staff.countDocuments, hlt, findOne_create_none hfresh,
    Staff.save, hstr, hhash]

theorem createStaff_persists_hash_witness :
    validateStaff sampleEnv (freshBody "r1") = none ∧
    (createStaff sampleEnv sampleStore (freshBody "r1")).1.status = 201 ∧
    ∃ r, (createStaff sampleEnv sampleStore (freshBody "r1")).2 = sampleStore ++ [r]
      ∧ r.password = sampleEnv.hash "password3" ∧ r.password ≠ "password3" :=
  ⟨by decide,
   createStaff_persists_hash sampleEnv sampleStore (freshBody "r1") ⟨"Manager", 5⟩ "password3"
     (by decide) rfl (by decide) (by decide) (by decide) (by decide)⟩

/-- C3: for a valid payload whose role exists with limit `L` and whose email,
phone and cnic match no stored record, `createStaff` answers 400 and leaves the
store as it is when `L` or more records have the role, and answers 201 and
appends exactly one record with that role when at most `L - 1` records have it. -/
theorem createStaff_role_limit_boundary (env : Env) (store : Store) (body : Body)
    (roleData : RoleData)
    (hvalid : validateStaff env body = none)
    (hrole : env.roleDir (body.str "role") = .ok (some roleData))
    (hfresh : ∀ r ∈ store, r.email ≠ body.str "email" ∧ r.phone ≠ body.str "phone"
      ∧ r.cnic ≠ body.str "cnic") :
    (roleData.limit ≤ store.countP (fun r => decide (r.role = body.str "role")) →
        (createStaff env store body).1.status = 400 ∧ (createStaff env store body).2 = store) ∧
    (((store.countP (fun r => decide (r.role = body.str "role")) : Nat) : Int)
          ≤ (roleData.limit : Int) - 1 →
        (createStaff env store body).1.status = 201 ∧
        ∃ r, r.role = body.str "role" ∧ (createStaff env store body).2 = store ++ [r]) := by
  constructor
  · intro hfull
    simp [createStaff, hvalid, hrole, Staff.countDocuments, hfull]
  · intro hbelow
    have hlt : ¬ roleData.limit ≤ store.countP (fun r => decide (r.role = body.str "role")) := by
      omega
    simp [createStaff, hvalid, hrole, Staff.countDocuments, hlt, findOne_create_none hfresh,
      Staff.save]

theorem createStaff_role_limit_boundary_witness :
    ((createStaff sampleEnv sampleStore (freshBody "r2")).1.status = 400 ∧
      (createStaff sampleEnv sampleStore (freshBody "r2")).2 = sampleStore) ∧
    ((createStaff sampleEnv sampleStore (freshBody "r1")).1.status = 201 ∧
      ∃ r, r.role = (freshBody "r1").str "role" ∧
        (createStaff sampleEnv sampleStore (freshBody "r1")).2 = sampleStore ++ [r]) :=
  ⟨(createStaff_role_limit_boundary sampleEnv sampleStore (freshBody "r2") ⟨"Cashier", 1⟩
      (by decide) rfl (by decide)).1 (by decide),
   (createStaff_role_limit_boundary sampleEnv sampleStore (freshBody "r1") ⟨"Manager", 5⟩
      (by decide) rfl (by decide)).2 (by decide)⟩

/-- C5: a valid payload whose role exists and is under its limit and whose
email, phone or cnic is held by a stored record is answered 400 "Staff already
exists!" with the store unchanged; and for the payload of the example, with role
`r1` of limit 5 and no prior staff, the first create answers 201 and stores one
record, the repeated create answers 400 "Staff already exists!" and leaves that
record as it is. -/
theorem createStaff_duplicate_rejected (env : Env) :
    (∀ (store : Store) (body : Body) (roleData : RoleData),
      validateStaff env body = none →
      env.roleDir (body.str "role") = .ok (some roleData) →
      store.countP (fun r => decide (r.role = body.str "role")) < roleData.limit →
      (∃ r ∈ store, r.email = body.str "email" ∨ r.phone = body.str "phone"
        ∨ r.cnic = body.str "cnic") →
      createStaff env store body
        = ({ status := 400, message := "Staff already exists!" }, store)) ∧
    (∀ name : String, env.isEmail "a@x.com" = true →
      env.roleDir "r1" = .ok (some { name := name, limit := 5 }) →
      (createStaff env [] sampleBody).1.status = 201 ∧
      (createStaff env [] sampleBody).2 =
        [{ id := env.newId, username := "a", email := env.toLowerCase "a@x.com",
           phone := "01234567890", cnic := "1234567890123",
           password := env.hash "password1", role := "r1" }] ∧
      createStaff env (createStaff env [] sampleBody).2 sampleBody
        = ({ status := 400, message := "Staff already exists!" },
           (createStaff env [] sampleBody).2)) := by
  constructor
  · intro store body roleData hvalid hrole hunder hdup
    have hlt : ¬ roleData.limit ≤ store.countP (fun r => decide (r.role = body.str "role")) := by
      omega
    obtain ⟨r, hr⟩ := findOne_create_some hdup
    simp [createStaff, hvalid, hrole, Staff.countDocuments, hlt, hr]
  · intro name hmail hrole
    have d11 : isDigits 11 "01234567890" = true := by decide
    have d13 : isDigits 13 "1234567890123" = true := by decide
    have u8 : 8 ≤ utf16Length "password1" := by decide
    have s1 : sampleBody.str "username" = "a" := by decide
    have s2 : sampleBody.str "email" = "a@x.com" := by decide
    have s3 : sampleBody.str "phone" = "01234567890" := by decide
    have s4 : sampleBody.str "cnic" = "1234567890123" := by decide
    have s5 : sampleBody.str "password" = "password1" := by decide
    have s6 : sampleBody.str "role" = "r1" := by decide
    have hkeys : ∀ k ∈ allowedFields, validateKey env true sampleBody k = none := by
      intro k hk
      simp only [allowedFields, List.mem_cons, List.mem_singleton, List.not_mem_nil,
        or_false] at hk
      rcases hk with rfl | rfl | rfl | rfl | rfl | rfl <;>
        simp [validateKey, sampleBody, Body.get, checkRule, hmail, d11, d13, u8]
    have hunknown : sampleBody.keys.find? (fun k => !allowedFields.contains k) = none := by
      decide
    have hvalid : validateStaff env sampleBody = none := by
      unfold validateStaff joiValidate
      rw [List.findSome?_eq_none_iff.2 hkeys, hunknown]
    have h1 : createStaff env [] sampleBody =
        ({ status := 201, message := "Staff created successfully!" },
         [{ id := env.newId, username := "a", email := env.toLowerCase "a@x.com",
            phone := "01234567890", cnic := "1234567890123",
            password := env.hash "password1", role := "r1" }]) := by
      simp [createStaff, hvalid, s1, s2, s3, s4, s5, s6, hrole, Staff.countDocuments,
        Staff.findOne, Staff.save]
    refine ⟨by rw [h1], by rw [h1], ?_⟩
    rw [h1]
    simp [createStaff, hvalid, s1, s2, s3, s4, s5, s6, hrole, Staff.countDocuments,
      Staff.findOne]

theorem createStaff_duplicate_rejected_witness :
    validateStaff sampleEnv sampleBody = none ∧
    createStaff sampleEnv sampleStore sampleBody
      = ({ status := 400, message := "Staff already exists!" }, sampleStore) :=
  ⟨by decide,
   (createStaff_duplicate_rejected sampleEnv).1 sampleStore sampleBody ⟨"Manager", 5⟩
     (by decide) rfl (by decide) (by decide)⟩

/-! ## Update -/

/-- C6: an `updateStaff` request whose body has a field name outside
`username, email, phone, cnic, password, role` is answered 400 and the store is
unchanged, whatever the id, the store and the other fields. -/
theorem updateStaff_rejects_unknown_field (env : Env) (store : Store) (id : String)
    (body : Body) (h : ∃ k ∈ body.keys, k ∉ allowedFields) :
    (updateStaff env store id body).1.status = 400 ∧
    (updateStaff env store id body).1.message
      = "Invalid fields: " ++ ", ".intercalate (invalidFields body) ∧
    (updateStaff env store id body).2 = store := by
  obtain ⟨k, hk, hnot⟩ := h
  have hmem : k ∈ invalidFields body := by
    unfold invalidFields
    rw [List.mem_filter]
    exact ⟨hk, by simpa using hnot⟩
  have hpos : (invalidFields body).length > 0 := List.length_pos_of_mem hmem
  simp [updateStaff, hpos]

theorem updateStaff_rejects_unknown_field_witness :
    (updateStaff sampleEnv sampleStore "missing" [("email", .number 1), ("salary", .object)]).1.status
      = 400 ∧
    (updateStaff sampleEnv sampleStore "missing" [("email", .number 1), ("salary", .object)]).1.message
      = "Invalid fields: " ++ ", ".intercalate (invalidFields [("email", .number 1), ("salary", .object)]) ∧
    (updateStaff sampleEnv sampleStore "missing" [("email", .number 1), ("salary", .object)]).2
      = sampleStore :=
  updateStaff_rejects_unknown_field sampleEnv sampleStore "missing"
    [("email", .number 1), ("salary", .object)] ⟨"salary", by decide, by decide⟩

/-- C7, as the code behaves: an `updateStaff` request whose phone is not 11
digits and whose email is a number is answered 500, not 400: line 134 calls
`toLowerCase` on the email before the schema of line 138 is applied.  The store
is unchanged. -/
theorem updateStaff_nonstring_email_is_500 (env : Env) (store : Store) (id : String) :
    updateStaff env store id [("email", .number 1), ("phone", .string "123")]
      = ({ status := 500, message := "An error occurred while updating staff." }, store) := by
  have h1 : invalidFields [("email", JsValue.number 1), ("phone", JsValue.string "123")] = [] := by
    decide
  simp [updateStaff, h1, lowerEmail, Body.get, truthy]

/-! ## The uniqueness invariant -/

/-- C2, as the code behaves: `sampleStore` has no two records with the same
email, phone or cnic; `createStaff` looks up the email `A@X.COM` as received
(lines 59, 74-76), finds nothing and answers 201; the record is stored with the
email normalised to `a@x.com`, which record `s1` holds, so the store left by
`createStaff` has two records with the same email. -/
theorem createStaff_breaks_uniqueness :
    UniqueStore sampleStore ∧
    createStaff sampleEnv sampleStore upperBody
      = ({ status := 201, message := "Staff created successfully!" },
         sampleStore ++
           [{ id := "s3", username := "c", email := "a@x.com", phone := "01234567892",
              cnic := "1234567890125", password := "$2b$10$password3", role := "r1" }]) ∧
    ¬ UniqueStore (createStaff sampleEnv sampleStore upperBody).2 := by
  decide

/-- Uniqueness of email, phone and cnic is kept by `updateStaff` and by
`deleteStaff` for every request, and by `createStaff` for every request whose
email is its own lower-case form. -/
theorem uniqueness_kept (env : Env) (store : Store) (h : UniqueStore store) :
    (∀ body, env.toLowerCase (body.str "email") = body.str "email" →
      UniqueStore (createStaff env store body).2) ∧
    (∀ id body, UniqueStore (updateStaff env store id body).2) ∧
    (∀ id, UniqueStore (deleteStaff env store id).2) := by
  refine ⟨fun body hlow => ?_, fun id body => ?_, fun id => ?_⟩
  · rcases createStaff_cases env store body with h1 | ⟨hfresh, h1⟩
    · rw [h1]; exact h
    · rw [h1]
      unfold Staff.save UniqueStore
      rw [List.pairwise_append]
      refine ⟨h, by simp, ?_⟩
      intro a ha b hb
      simp only [List.mem_singleton] at hb
      subst hb
      simp only [hlow]
      exact hfresh a ha
  · rcases updateStaff_cases env store id body with ⟨h1, _⟩ |
      ⟨b1, b2, cur, _, _, hv, hh, hfind, hu, _, h1⟩
    · rw [h1]; exact h
    · rw [h1]
      have hnc := uniqueConflict_eq_none hu
      have hval : ∀ f ∈ ["email", "phone", "cnic"],
          b2.get f = none ∨ ∃ s, b2.get f = some (.string s) ∧ s ≠ "" := by
        intro f hf
        have hf1 : f ≠ "password" := by
          rintro rfl; simp at hf
        have hf2 : f ∈ allowedFields := by
          simp only [allowedFields, List.mem_cons] at hf ⊢
          tauto
        rw [hashPassword_get hh hf1]
        rcases valid_get hv hf2 with ⟨h2, _⟩ | ⟨s, h2, hs, _⟩
        · exact Or.inl h2
        · exact Or.inr ⟨s, h2, hs⟩
      have he := merge_field_cases (hval "email" (by simp)) (hnc "email" (by simp))
      have hp := merge_field_cases (hval "phone" (by simp)) (hnc "phone" (by simp))
      have hc := merge_field_cases (hval "cnic" (by simp)) (hnc "cnic" (by simp))
      apply unique_replaceById h hfind
      · rcases he with h2 | ⟨s, h2, h3⟩
        · left; simp [applySet, h2]
        · simpa [applySet, h2, Body.str, StaffRecord.field] using h3
      · rcases hp with h2 | ⟨s, h2, h3⟩
        · left; simp [applySet, h2]
        · simpa [applySet, h2, Body.str, StaffRecord.field] using h3
      · rcases hc with h2 | ⟨s, h2, h3⟩
        · left; simp [applySet, h2]
        · simpa [applySet, h2, Body.str, StaffRecord.field] using h3
  · unfold deleteStaff Staff.findByIdAndDelete
    split
    · exact h
    · exact h
    · next heq =>
      split at heq
      · split at heq
        · simp at heq
        · simp only [Except.ok.injEq, Option.some.injEq, Prod.mk.injEq] at heq
          rw [← heq.2]
          exact List.Pairwise.sublist (removeById_sublist id store) h
      · simp at heq

/-- C8: when `updateStaff` answers 200 for id `i`, the record with that id is
replaced in place by the record of the answer and no other position of the
store changes; the new record keeps the id and every field the body does not
supply, and every supplied value is a string that the new record holds: the
email lower-cased, the password hashed, the other fields as supplied. -/
theorem updateStaff_is_merge (env : Env) (store : Store) (id : String) (body : Body)
    (h200 : (updateStaff env store id body).1.status = 200) :
    ∃ (cur new : StaffRecord) (n : Nat),
      store[n]? = some cur ∧ cur.id = id ∧
      (updateStaff env store id body).1.staff = some new ∧
      (updateStaff env store id body).2 = store.set n new ∧
      new.id = cur.id ∧
      (∀ f ∈ allowedFields, body.get f = none → new.field f = cur.field f) ∧
      (∀ f v, body.get f = some v → ∃ s, v = .string s ∧
        new.field f = if f = "email" then env.toLowerCase s
                      else if f = "password" then env.hash s else s) := by
  rcases updateStaff_cases env store id body with ⟨_, h1⟩ |
    ⟨b1, b2, cur, hf, hl, hv, hh, hfind, _, _, h1⟩
  · exact absurd h200 h1
  · obtain ⟨n, hn, hset⟩ := replaceById_eq_set (applySet cur b2) hfind
    have hcur : cur.id = id := by simpa using List.find?_some hfind
    refine ⟨cur, applySet cur b2, n, hn, hcur, by rw [h1], by rw [h1, hset], rfl, ?_, ?_⟩
    · intro f hfa hnone
      have hb1 : b1.get f = none := by
        by_cases he : f = "email"
        · subst he; exact (lowerEmail_email hl).1 hnone
        · rw [lowerEmail_get hl he]; exact hnone
      have hb2 : b2.get f = none := by
        by_cases hp : f = "password"
        · subst hp; exact (hashPassword_password hh).1 hb1
        · rw [hashPassword_get hh hp]; exact hb1
      rw [applySet_field cur b2 hfa, hb2]
      simp
    · intro f v hget
      have hfa : f ∈ allowedFields :=
        allowed_of_invalidFields_nil hf (Body.mem_keys_of_get hget)
      rw [applySet_field cur b2 hfa]
      by_cases he : f = "email"
      · subst he
        obtain ⟨e, hve, _, hb1⟩ := lowerEmail_supplied hl hv hget
        have hb2 : b2.get "email" = some (.string (env.toLowerCase e)) := by
          rw [hashPassword_get hh (by decide)]; exact hb1
        exact ⟨e, hve, by simp [hb2, Body.str]⟩
      · have hb1 : b1.get f = some v := by rw [lowerEmail_get hl he]; exact hget
        rcases valid_get hv hfa with ⟨h2, _⟩ | ⟨s, h2, hs, _⟩
        · rw [h2] at hb1; simp at hb1
        · have hvs : v = .string s := by
            rw [h2] at hb1; exact (Option.some.inj hb1).symm
          refine ⟨s, hvs, ?_⟩
          by_cases hp : f = "password"
          · subst hp
            have hb2 := (hashPassword_password hh).2 s hs h2
            simp [hb2, Body.str]
          · have hb2 : b2.get f = some (.string s) := by
              rw [hashPassword_get hh hp]; exact h2
            simp [hb2, Body.str, he, hp]

theorem updateStaff_is_merge_witness :
    ∃ (cur new : StaffRecord) (n : Nat),
      sampleStore[n]? = some cur ∧ cur.id = "s2" ∧
      (updateStaff sampleEnv sampleStore "s2"
        [("email", .string "C@x.com"), ("password", .string "password4")]).1.staff = some new ∧
      (updateStaff sampleEnv sampleStore "s2"
        [("email", .string "C@x.com"), ("password", .string "password4")]).2
          = sampleStore.set n new ∧
      new.id = cur.id ∧
      (∀ f ∈ allowedFields,
        Body.get [("email", .string "C@x.com"), ("password", .string "password4")] f = none →
          new.field f = cur.field f) ∧
      (∀ f v, Body.get [("email", .string "C@x.com"), ("password", .string "password4")] f
          = some v → ∃ s, v = .string s ∧
        new.field f = if f = "email" then sampleEnv.toLowerCase s
                      else if f = "password" then sampleEnv.hash s else s) :=
  updateStaff_is_merge sampleEnv sampleStore "s2"
    [("email", .string "C@x.com"), ("password", .string "password4")] (by decide)

/-- C9, counterexample: record `s2` is updated with the email `A@X.COM`.  No
record holds that value, so no supplied field is in the situation the claim
describes; the code compares the lower-cased `a@x.com`, which record `s1`
holds, and answers 400 "email already exists!". -/
theorem updateStaff_email_compared_lowercased :
    (∀ f ∈ ["email", "phone", "cnic"],
      ¬ SpecConflict sampleStore "s2" (sampleStore.get ⟨1, by decide⟩)
        [("email", .string "A@X.COM")] f) ∧
    updateStaff sampleEnv sampleStore "s2" [("email", .string "A@X.COM")]
      = ({ status := 400, message := "email already exists!" }, sampleStore) := by
  refine ⟨?_, by decide⟩
  intro f hf
  rintro ⟨s, hs, _, r, hr, _, hrs⟩
  simp only [List.mem_cons, List.mem_singleton, List.not_mem_nil, or_false] at hf
  simp only [sampleStore, List.mem_cons, List.mem_singleton, List.not_mem_nil, or_false] at hr
  rcases hf with rfl | rfl | rfl
  · have hs2 : s = "A@X.COM" := by simpa [Body.get] using hs.symm
    subst hs2
    rcases hr with rfl | rfl <;> simp [StaffRecord.field] at hrs
  · simp [Body.get] at hs
  · simp [Body.get] at hs

/-- C9, amended: for a well-formed update of an existing record `i` of a store
whose ids are distinct, taking the fields email, phone, cnic in that order and
the email in the lower-cased form line 134 gives it, the first field whose
supplied value differs from record `i`'s current value and is held by a record
other than `i` is answered 400 "<field> already exists!" with the store
unchanged; when no field is in that situation the answer has none of these
messages; and a phone or cnic equal to record `i`'s current one, or an email
whose lower-cased form is record `i`'s current email, is never a conflict. -/
theorem updateStaff_uniqueness_check (env : Env) (store : Store) (id : String)
    (body b1 : Body) (cur : StaffRecord)
    (hids : (store.map StaffRecord.id).Nodup)
    (hf : invalidFields body = [])
    (hl : lowerEmail env body = some b1)
    (hv : joiValidate env false b1 = none)
    (hid : Staff.findById env store id = .ok (some cur)) :
    (SpecConflict store id cur b1 "email" →
      updateStaff env store id body
        = ({ status := 400, message := "email already exists!" }, store)) ∧
    (¬ SpecConflict store id cur b1 "email" → SpecConflict store id cur b1 "phone" →
      updateStaff env store id body
        = ({ status := 400, message := "phone already exists!" }, store)) ∧
    (¬ SpecConflict store id cur b1 "email" → ¬ SpecConflict store id cur b1 "phone" →
      SpecConflict store id cur b1 "cnic" →
      updateStaff env store id body
        = ({ status := 400, message := "cnic already exists!" }, store)) ∧
    (¬ SpecConflict store id cur b1 "email" → ¬ SpecConflict store id cur b1 "phone" →
      ¬ SpecConflict store id cur b1 "cnic" →
      ∀ f ∈ ["email", "phone", "cnic"],
        (updateStaff env store id body).1.message ≠ f ++ " already exists!") ∧
    (∀ e, body.get "email" = some (.string e) → env.toLowerCase e = cur.email →
      ¬ SpecConflict store id cur b1 "email") ∧
    (body.get "phone" = some (.string cur.phone) → ¬ SpecConflict store id cur b1 "phone") ∧
    (body.get "cnic" = some (.string cur.cnic) → ¬ SpecConflict store id cur b1 "cnic") := by
  obtain ⟨b2, hh⟩ := hashPassword_of_valid hv
  have hfind := (find_findById hid).2
  have hrun := updateStaff_prepared hf hl hv hh hid
  have he := specConflict_iff_loopConflict (f := "email") hids hfind hv hh (by simp)
  have hp := specConflict_iff_loopConflict (f := "phone") hids hfind hv hh (by simp)
  have hc := specConflict_iff_loopConflict (f := "cnic") hids hfind hv hh (by simp)
  refine ⟨?_, ?_, ?_, ?_, ?_, ?_, ?_⟩
  · intro h1
    rw [hrun, uniqueConflict_cons_of_conflict _ (he.1 h1)]
    rfl
  · intro h1 h2
    rw [hrun, uniqueConflict_cons_of_not _ (fun h => h1 (he.2 h)),
      uniqueConflict_cons_of_conflict _ (hp.1 h2)]
    rfl
  · intro h1 h2 h3
    rw [hrun, uniqueConflict_cons_of_not _ (fun h => h1 (he.2 h)),
      uniqueConflict_cons_of_not _ (fun h => h2 (hp.2 h)),
      uniqueConflict_cons_of_conflict _ (hc.1 h3)]
    rfl
  · intro h1 h2 h3 f hfm
    rw [hrun, uniqueConflict_cons_of_not _ (fun h => h1 (he.2 h)),
      uniqueConflict_cons_of_not _ (fun h => h2 (hp.2 h)),
      uniqueConflict_cons_of_not _ (fun h => h3 (hc.2 h))]
    simp only [uniqueConflict]
    have k1 : ∀ g ∈ ["email", "phone", "cnic"],
        "Staff updated successfully!" ≠ g ++ " already exists!" := by decide
    have k2 : ∀ g ∈ ["email", "phone", "cnic"],
        "An error occurred while updating staff." ≠ g ++ " already exists!" := by decide
    have k3 : ∀ g ∈ ["email", "phone", "cnic"],
        "Invalid role ID!" ≠ g ++ " already exists!" := by decide
    cases hr : roleLimitCheck env store id cur b2 with
    | none => exact k1 f hfm
    | some response =>
      show response.message ≠ _
      rcases roleLimitCheck_message hr with h4 | h4 | ⟨name, h4⟩
      · rw [h4]; exact k2 f hfm
      · rw [h4]; exact k3 f hfm
      · rw [h4]; exact limit_message_ne name hfm
  · rintro e hget hlow ⟨s, hs, hne, _⟩
    obtain ⟨e', hve, _, hb1⟩ := lowerEmail_supplied hl hv hget
    have hee : e' = e := by simpa using hve.symm
    subst hee
    rw [hb1] at hs
    have hs' : env.toLowerCase e' = s := by simpa using hs
    exact hne (by simp [StaffRecord.field, ← hs', hlow])
  · rintro hget ⟨s, hs, hne, _⟩
    rw [lowerEmail_get hl (by decide), hget] at hs
    exact hne (by simpa [StaffRecord.field] using hs.symm)
  · rintro hget ⟨s, hs, hne, _⟩
    rw [lowerEmail_get hl (by decide), hget] at hs
    exact hne (by simpa [StaffRecord.field] using hs.symm)

theorem updateStaff_uniqueness_check_witness :
    (sampleStore.map StaffRecord.id).Nodup ∧
    SpecConflict sampleStore "s2" (sampleStore.get ⟨1, by decide⟩)
      [("phone", .string "01234567890")] "phone" ∧
    updateStaff sampleEnv sampleStore "s2" [("phone", .string "01234567890")]
      = ({ status := 400, message := "phone already exists!" }, sampleStore) :=
  ⟨by decide,
   ⟨"01234567890", by decide, by decide, sampleStore.get ⟨0, by decide⟩, by decide, by decide,
     by decide⟩,
   (updateStaff_uniqueness_check sampleEnv sampleStore "s2" [("phone", .string "01234567890")]
      [("phone", .string "01234567890")] (sampleStore.get ⟨1, by decide⟩)
      (by decide) (by decide) (by decide) (by decide) rfl).2.1
     (fun ⟨_, h, _⟩ => by simp [Body.get] at h)
     ⟨"01234567890", by decide, by decide, sampleStore.get ⟨0, by decide⟩, by decide, by decide,
       by decide⟩⟩

/-- C10: for a well-formed update of an existing record `i` that passes the
uniqueness checks and supplies a role `R` other than the record's current role:
an unknown role is answered 400 "Invalid role ID!"; a role with limit `L` and
name `N` is answered 400 with a message that contains `N`, the store unchanged,
when `L` or more records other than `i` have role `R`, and the update is applied
when fewer have it, so that the rejection happens exactly in the first case.
An update without a role, or with the record's current role, is applied
whatever the role service would answer. -/
theorem updateStaff_role_limit (env : Env) (store : Store) (id : String)
    (body b1 b2 : Body) (cur : StaffRecord)
    (hf : invalidFields body = [])
    (hl : lowerEmail env body = some b1)
    (hv : joiValidate env false b1 = none)
    (hh : hashPassword env b1 = some b2)
    (hid : Staff.findById env store id = .ok (some cur))
    (hu : uniqueConflict store cur b2 ["email", "phone", "cnic"] = none) :
    (∀ R, body.get "role" = some (.string R) → R ≠ cur.role →
      (env.roleDir R = .ok none →
        updateStaff env store id body
          = ({ status := 400, message := "Invalid role ID!" }, store)) ∧
      (∀ N L, env.roleDir R = .ok (some { name := N, limit := L }) →
        (L ≤ store.countP (fun r => decide (r.role = R) && decide (r.id ≠ id)) →
          updateStaff env store id body
            = ({ status := 400,
                 message := "Limit Reached! Cannot assign more staff to the \"" ++ N
                              ++ "\" role." }, store)) ∧
        (store.countP (fun r => decide (r.role = R) && decide (r.id ≠ id)) < L →
          updateStaff env store id body
            = ({ status := 200, message := "Staff updated successfully!",
                 staff := some (applySet cur b2) }, replaceById id (applySet cur b2) store)) ∧
        ((updateStaff env store id body).1.status = 400 ↔
          L ≤ store.countP (fun r => decide (r.role = R) && decide (r.id ≠ id))))) ∧
    ((body.get "role" = none ∨ body.get "role" = some (.string cur.role)) →
      ∀ dir : String → Except String (Option RoleData),
        updateStaff { env with roleDir := dir } store id body
          = ({ status := 200, message := "Staff updated successfully!",
               staff := some (applySet cur b2) }, replaceById id (applySet cur b2) store)) := by
  have hrun := updateStaff_prepared hf hl hv hh hid
  rw [hu] at hrun
  have hrole : b2.get "role" = body.get "role" := by
    rw [hashPassword_get hh (by decide), lowerEmail_get hl (by decide)]
  constructor
  · intro R hR hne
    have hb2 : b2.get "role" = some (.string R) := by rw [hrole, hR]
    have hRne : R ≠ "" := by
      rcases valid_get hv (k := "role") (by simp [allowedFields]) with ⟨h2, _⟩ | ⟨s, h2, hs, _⟩
      · rw [hashPassword_get hh (by decide), h2] at hb2; simp at hb2
      · rw [hashPassword_get hh (by decide), h2] at hb2
        have : s = R := by simpa using hb2
        exact this ▸ hs
    have hstr : b2.str "role" = R := by simp [Body.str, hb2]
    have hcond : (truthy (b2.get "role")
        && decide (b2.get "role" ≠ some (.string cur.role))) = true := by
      simp [hb2, truthy, hRne, hne]
    have hcount : Staff.countDocuments store
        (fun r => decide (some (JsValue.string r.role) = b2.get "role") && decide (r.id ≠ id))
        = store.countP (fun r => decide (r.role = R) && decide (r.id ≠ id)) := by
      unfold Staff.countDocuments
      congr 1
      funext r
      simp [hb2]
    refine ⟨fun hdir => ?_, fun N L hdir => ?_⟩
    · rw [hrun]
      simp only [roleLimitCheck, hcond, if_true, hstr, hdir]
    · have hfull : L ≤ store.countP (fun r => decide (r.role = R) && decide (r.id ≠ id)) →
          updateStaff env store id body
            = ({ status := 400,
                 message := "Limit Reached! Cannot assign more staff to the \"" ++ N
                              ++ "\" role." }, store) := by
        intro hle
        rw [hrun]
        simp only [roleLimitCheck, hcond, if_true, hstr, hdir, hcount, ge_iff_le, hle]
      have hbelow : store.countP (fun r => decide (r.role = R) && decide (r.id ≠ id)) < L →
          updateStaff env store id body
            = ({ status := 200, message := "Staff updated successfully!",
                 staff := some (applySet cur b2) }, replaceById id (applySet cur b2) store) := by
        intro hlt
        rw [hrun]
        simp only [roleLimitCheck, hcond, if_true, hstr, hdir, hcount, ge_iff_le,
          Nat.not_le.2 hlt, if_false]
      refine ⟨hfull, hbelow, ?_⟩
      constructor
      · intro h400
        by_contra hnot
        rw [hbelow (Nat.not_le.1 hnot)] at h400
        simp at h400
      · intro hle
        rw [hfull hle]
  · intro hsame dir
    have hcond : (truthy (b2.get "role")
        && decide (b2.get "role" ≠ some (.string cur.role))) = false := by
      rcases hsame with h | h
      · simp [hrole, h, truthy]
      · simp [hrole, h]
    have hrun' := @updateStaff_prepared { env with roleDir := dir } store id body b1 b2 cur
      hf hl hv hh hid
    rw [hu] at hrun'
    rw [hrun']
    simp only [roleLimitCheck, hcond]
    rfl

theorem updateStaff_role_limit_witness :
    updateStaff sampleEnv sampleStore "s1" [("role", .string "r2")]
      = ({ status := 400,
           message := "Limit Reached! Cannot assign more staff to the \"" ++ "Cashier"
                        ++ "\" role." }, sampleStore) :=
  ((((updateStaff_role_limit sampleEnv sampleStore "s1" [("role", .string "r2")]
      [("role", .string "r2")] [("role", .string "r2")] (sampleStore.get ⟨0, by decide⟩)
      (by decide) (by decide) (by decide) (by decide) rfl (by decide)).1 "r2"
      (by decide) (by decide)).2 "Cashier" 1 rfl).1 (by decide))

/-! ## Format violations -/

theorem joiValidate_of_violation (env : Env) (required : Bool) (body : Body)
    (h : FormatViolation body) : joiValidate env required body ≠ none := by
  intro hnone
  rcases h with ⟨s, hs, hbad⟩ | ⟨s, hs, hbad⟩ | ⟨s, hs, hbad⟩
  · rcases valid_get hnone (k := "phone") (by simp [allowedFields]) with ⟨h2, _⟩ | ⟨t, h2, _, h3⟩
    · rw [h2] at hs; simp at hs
    · have : t = s := by rw [h2] at hs; simpa using hs
      subst this
      simp [checkRule, hbad] at h3
  · rcases valid_get hnone (k := "cnic") (by simp [allowedFields]) with ⟨h2, _⟩ | ⟨t, h2, _, h3⟩
    · rw [h2] at hs; simp at hs
    · have : t = s := by rw [h2] at hs; simpa using hs
      subst this
      simp [checkRule, hbad] at h3
  · rcases valid_get hnone (k := "password") (by simp [allowedFields]) with
      ⟨h2, _⟩ | ⟨t, h2, _, h3⟩
    · rw [h2] at hs; simp at hs
    · have : t = s := by rw [h2] at hs; simpa using hs
      subst this
      simp [checkRule, Nat.not_le.2 hbad] at h3

theorem lowerEmail_violation {env : Env} {body b1 : Body} (hl : lowerEmail env body = some b1)
    (h : FormatViolation body) : FormatViolation b1 := by
  unfold FormatViolation at h ⊢
  rw [lowerEmail_get hl (k := "phone") (by decide), lowerEmail_get hl (k := "cnic") (by decide),
    lowerEmail_get hl (k := "password") (by decide)]
  exact h

/-- Format violations that are rejected: `createStaff` answers 400 and leaves the
store as it is when the body lacks one of the six fields or violates a format;
`updateStaff` does so for a format violation whenever line 134 does not throw,
that is, when the email is absent, falsy or a string. -/
theorem format_violation_rejected (env : Env) (store : Store) :
    (∀ body, ((∃ f ∈ allowedFields, body.get f = none) ∨ FormatViolation body) →
      (createStaff env store body).1.status = 400 ∧ (createStaff env store body).2 = store) ∧
    (∀ id body b1, lowerEmail env body = some b1 → FormatViolation body →
      (updateStaff env store id body).1.status = 400 ∧
        (updateStaff env store id body).2 = store) := by
  constructor
  · intro body h
    have hne : validateStaff env body ≠ none := by
      rcases h with ⟨f, hf, hnone⟩ | h
      · intro hv
        rcases valid_get hv hf with ⟨_, h2⟩ | ⟨s, h2, _⟩
        · simp at h2
        · rw [h2] at hnone; simp at hnone
      · exact joiValidate_of_violation env true body h
    cases hv : validateStaff env body with
    | none => exact absurd hv hne
    | some e => simp [createStaff, hv]
  · intro id body b1 hl h
    by_cases hinv : (invalidFields body).length > 0
    · simp [updateStaff, hinv]
    · cases hv : joiValidate env false b1 with
      | none => exact absurd hv (joiValidate_of_violation env false b1 (lowerEmail_violation hl h))
      | some e => simp [updateStaff, hinv, hl, hv]

end StaffController
